import Mathlib

/-!
Verification development for the factuser repository (PDF invoice sorter).

This file gives a shallow embedding, in Lean 4, of the pure core of
src/factuser-v2.py (with src/factuser-v1.py as the earlier overlapping
implementation): the date normalizer (parse_date_any), the provider-name
canonicalizer (normalize_provider), the CSV record index (_index_csv_row and
_load_csv_suggestions_and_indices), the suggestion-dropdown builders
(populate_ai_from_sources and populate_ai_from_cache), and the geometric
text-selection handlers (both definitions of on_pdf_click, and on_pdf_box).

Modelling conventions:
  - Python strings are modelled as Lean String or List Char; Python floats are
    modelled as exact rationals, and all concrete inputs used in theorems are
    chosen so that the corresponding IEEE computations are exact as well.
  - The regular expressions in the source are small and anchored; each one is
    embedded as a first-order matcher over List Char that reproduces the
    leftmost-greedy (with backtracking) semantics of re.match for exactly the
    pattern in question.  Comments on each matcher justify the translation.
  - Note that the class PdfSorter in factuser-v2.py defines several methods
    twice (a block of older v1 methods was pasted after the newer ones);
    in Python the later definition shadows the earlier one, so the later
    duplicates are the effective code.  Both versions are embedded where a
    claim depends on the difference.
-/

/-! ## Character helpers -/

/-- Membership of a character in the regex class backslash-d (ASCII digits). -/
def isDig (c : Char) : Bool := 48 ≤ c.toNat && c.toNat ≤ 57

/-- Numeric value of an ASCII digit character. -/
def digVal (c : Char) : Nat := c.toNat - 48

/-- Value of a digit string, as computed by Python int() on a digit-only
string (leading zeros allowed). -/
def natOfDigits (cs : List Char) : Nat := cs.foldl (fun n c => 10 * n + digVal c) 0

/-- Membership in the regex class [.\-\/] used by the date patterns. -/
def isSepCh (c : Char) : Bool := c = '.' || c = '-' || c = '/'

/-- Python str.strip default whitespace, which on the inputs in scope
coincides with the regex class backslash-s: space, tab, newline, carriage
return, vertical tab, form feed. -/
def isPySpace (c : Char) : Bool :=
  c = ' ' || c = '\t' || c = '\n' || c = '\r' || c = '\x0b' || c = '\x0c'

/-- Membership in the regex class [a-z\.] used for month words. -/
def isWordCh (c : Char) : Bool := (97 ≤ c.toNat && c.toNat ≤ 122) || c = '.'

/-- Python str.lower restricted to ASCII and Latin-1: uppercase A-Z (65-90)
and the Latin-1 uppercase letters (192-222 except 215, the multiplication
sign) map 32 codepoints up; every other character is left unchanged.  The
characters relevant to the embedded code (digits, separators, ASCII letters
and the accented letters of _strip_accents) are all covered exactly. -/
def pyLower (c : Char) : Char :=
  if (65 ≤ c.toNat ∧ c.toNat ≤ 90) ∨ (192 ≤ c.toNat ∧ c.toNat ≤ 222 ∧ c.toNat ≠ 215) then
    Char.ofNat (c.toNat + 32)
  else c

/-- The character translation table of _strip_accents in factuser-v2.py:
str.maketrans from the accented letters to their plain counterparts
(a-acute 225 to a, e-acute 233 to e, i-acute 237 to i, o-acute 243 to o,
u-acute 250 to u, u-diaeresis 252 to u, and the uppercase forms 193, 201,
205, 211, 218, 220 to A E I O U U, n-tilde 241 to n, N-tilde 209 to N);
all other characters are unchanged. -/
def stripAccentChar (c : Char) : Char :=
  match c.toNat with
  | 225 => 'a' | 233 => 'e' | 237 => 'i' | 243 => 'o' | 250 => 'u' | 252 => 'u'
  | 193 => 'A' | 201 => 'E' | 205 => 'I' | 211 => 'O' | 218 => 'U' | 220 => 'U'
  | 241 => 'n' | 209 => 'N'
  | _ => c

/-- Python str.strip with no argument: drop whitespace from both ends. -/
def pyStrip (cs : List Char) : List Char :=
  ((cs.dropWhile isPySpace).reverse.dropWhile isPySpace).reverse

/-- Python str.strip on a String. -/
def pyStripStr (s : String) : String := String.mk (pyStrip s.data)

/-- Python str.lower on a String (see pyLower). -/
def pyLowerStr (s : String) : String := String.mk (s.data.map pyLower)

/-- The substitution re.sub applied with the pattern of one-or-more commas
or tabs and the replacement a single space: every maximal run of commas and
tabs becomes one space.  The flag records whether the previous character was
part of such a run, so each run emits exactly one space at its start. -/
def collapseCT (prevCT : Bool) : List Char → List Char
  | [] => []
  | c :: rest =>
    if c = ',' || c = '\t' then
      (if prevCT then [] else [' ']) ++ collapseCT true rest
    else c :: collapseCT false rest

/-- Python str.strip with the single-character argument dot, as used on the
captured month word: dots are removed from both ends. -/
def stripDots (cs : List Char) : List Char :=
  ((cs.dropWhile (fun c => c = '.')).reverse.dropWhile (fun c => c = '.')).reverse

/-! ## Date parsing (factuser-v2.py, lines 78-117) -/

/-- The MONTHS dictionary of factuser-v2.py, in source order.  The source
dict literal repeats a few keys with the same value (feb, mar and sept each
appear in both the English and the Spanish block); dictionary construction
keeps one entry per key, and since the repeated values agree, a first-match
association-list lookup over the deduplicated list below is equivalent. -/
def MONTHS : List (String × Nat) :=
  [("jan", 1), ("january", 1), ("feb", 2), ("february", 2), ("mar", 3), ("march", 3),
   ("apr", 4), ("april", 4), ("may", 5),
   ("jun", 6), ("june", 6), ("jul", 7), ("july", 7), ("aug", 8), ("august", 8),
   ("sep", 9), ("sept", 9), ("september", 9),
   ("oct", 10), ("october", 10), ("nov", 11), ("november", 11), ("dec", 12), ("december", 12),
   ("ene", 1), ("enero", 1), ("febrero", 2), ("marzo", 3), ("abr", 4), ("abril", 4),
   ("mayo", 5), ("junio", 6), ("julio", 7), ("ago", 8), ("agosto", 8),
   ("set", 9), ("septiembre", 9), ("setiembre", 9), ("octubre", 10), ("noviembre", 11),
   ("dic", 12), ("diciembre", 12)]

/-- Lookup of a month word in MONTHS. -/
def monthLookup (w : List Char) : Option Nat :=
  (MONTHS.find? (fun p => p.1 = String.mk w)).map (fun p => p.2)

/-- Two-digit year rule of parse_date_any: years below 100 get 2000 added. -/
def fixY (y : Nat) : Nat := if y < 100 then y + 2000 else y

/-- Maximal run of digits and the remainder (regex greedy backslash-d
repetition; since in every date pattern a digit group is followed by a
non-digit element, the group must consume a whole maximal run, so the
run length is simply checked against the repetition bounds). -/
def spanDigits (cs : List Char) : List Char × List Char :=
  (cs.takeWhile isDig, cs.dropWhile isDig)

/-- Maximal run of month-word characters and the remainder (regex greedy
[a-z\.]+; in the date patterns it is always followed by whitespace, so the
maximal run is the only possible match). -/
def spanWord (cs : List Char) : List Char × List Char :=
  (cs.takeWhile isWordCh, cs.dropWhile isWordCh)

/-- Regex backslash-s-plus: at least one whitespace character, consumed
greedily, returning the remainder; none if the input does not start with
whitespace. -/
def dropSpaces1 (cs : List Char) : Option (List Char) :=
  match cs with
  | c :: rest => if isPySpace c then some (rest.dropWhile isPySpace) else none
  | [] => none

/-- Pattern 1 of parse_date_any: anchored (backslash-d 4) sep (1-2 digits)
sep (1-2 digits) with optional surrounding whitespace; returns the triple
(year, month, day) directly, with no year fixup and no range validation. -/
def pat1 (cs0 : List Char) : Option (Nat × Nat × Nat) :=
  let cs := cs0.dropWhile isPySpace
  let (y, r1) := spanDigits cs
  match r1 with
  | c1 :: r2 =>
    if y.length = 4 ∧ isSepCh c1 then
      let (mo, r3) := spanDigits r2
      match r3 with
      | c2 :: r4 =>
        if (1 ≤ mo.length ∧ mo.length ≤ 2) ∧ isSepCh c2 then
          let (d, r5) := spanDigits r4
          if (1 ≤ d.length ∧ d.length ≤ 2) ∧ r5.dropWhile isPySpace = [] then
            some (natOfDigits y, natOfDigits mo, natOfDigits d)
          else none
        else none
      | [] => none
    else none
  | [] => none

/-- Pattern 2 of parse_date_any: (1-2 digits) sep (1-2 digits) sep (2-4
digits), read day-month-year, with the two-digit-year fixup; returns
(year, month, day). -/
def pat2 (cs0 : List Char) : Option (Nat × Nat × Nat) :=
  let cs := cs0.dropWhile isPySpace
  let (d, r1) := spanDigits cs
  match r1 with
  | c1 :: r2 =>
    if (1 ≤ d.length ∧ d.length ≤ 2) ∧ isSepCh c1 then
      let (mo, r3) := spanDigits r2
      match r3 with
      | c2 :: r4 =>
        if (1 ≤ mo.length ∧ mo.length ≤ 2) ∧ isSepCh c2 then
          let (y, r5) := spanDigits r4
          if (2 ≤ y.length ∧ y.length ≤ 4) ∧ r5.dropWhile isPySpace = [] then
            some (fixY (natOfDigits y), natOfDigits mo, natOfDigits d)
          else none
        else none
      | [] => none
    else none
  | [] => none

/-- Regex-match part of pattern 3: (1-2 digits) whitespace (month word)
whitespace (2-4 digits); yields the day, the raw month word and the raw
year value. -/
def pat3re (cs0 : List Char) : Option (Nat × List Char × Nat) :=
  let cs := cs0.dropWhile isPySpace
  let (d, r1) := spanDigits cs
  if 1 ≤ d.length ∧ d.length ≤ 2 then
    match dropSpaces1 r1 with
    | some r2 =>
      let (w, r3) := spanWord r2
      if w.length = 0 then none else
      match dropSpaces1 r3 with
      | some r4 =>
        let (y, r5) := spanDigits r4
        if (2 ≤ y.length ∧ y.length ≤ 4) ∧ r5.dropWhile isPySpace = [] then
          some (natOfDigits d, w, natOfDigits y)
        else none
      | none => none
    | none => none
  else none

/-- Pattern 3 of parse_date_any: regex match, then the captured month word
is stripped of dots and looked up in MONTHS; an unknown month makes this
pattern fail (the source falls through to the next pattern). -/
def pat3 (cs : List Char) : Option (Nat × Nat × Nat) :=
  match pat3re cs with
  | some (d, w, y) =>
    match monthLookup (stripDots w) with
    | some m => some (fixY y, m, d)
    | none => none
  | none => none

/-- One alternative of the tail of pattern 4, for a fixed day-group length k.
The tail regex is (1-2 digits)(optional whitespace run)(2-4 digits) then
optional whitespace to the end.  The maximal digit run r (followed by rest,
which starts with a non-digit) has been taken; the day group takes k of it.
If the run is exhausted, the optional whitespace group must consume a real
whitespace run and the year is the next maximal digit run (which must be
consumed whole, 2-4 digits, since leftover digits would falsify the end
anchor); otherwise the optional group matches empty and the year must be
exactly the remaining digits of the same run. -/
def try4 (r rest : List Char) (k : Nat) : Option (Nat × Nat) :=
  let d := r.take k
  let rr := r.drop k
  if rr.length = 0 then
    match dropSpaces1 rest with
    | some r2 =>
      let (y, r3) := spanDigits r2
      if (2 ≤ y.length ∧ y.length ≤ 4) ∧ r3.dropWhile isPySpace = [] then
        some (natOfDigits d, natOfDigits y)
      else none
    | none => none
  else
    if (2 ≤ rr.length ∧ rr.length ≤ 4) ∧ rest.dropWhile isPySpace = [] then
      some (natOfDigits d, natOfDigits rr)
    else none

/-- Tail of pattern 4 with the greedy backtracking order of re.match: the
day group prefers two digits, falling back to one. -/
def pat4tail (cs : List Char) : Option (Nat × Nat) :=
  let (r, rest) := spanDigits cs
  if r.length = 0 then none
  else if 2 ≤ r.length then
    match try4 r rest 2 with
    | some dy => some dy
    | none => try4 r rest 1
  else try4 r rest 1

/-- Regex-match part of pattern 4: (month word) whitespace (1-2 digits)
(optional whitespace)(2-4 digits). -/
def pat4re (cs0 : List Char) : Option (List Char × Nat × Nat) :=
  let cs := cs0.dropWhile isPySpace
  let (w, r1) := spanWord cs
  if w.length = 0 then none else
  match dropSpaces1 r1 with
  | some r2 => (pat4tail r2).map (fun dy => (w, dy.1, dy.2))
  | none => none

/-- Pattern 4 of parse_date_any, with the MONTHS lookup after the regex. -/
def pat4 (cs : List Char) : Option (Nat × Nat × Nat) :=
  match pat4re cs with
  | some (w, d, y) =>
    match monthLookup (stripDots w) with
    | some m => some (fixY y, m, d)
    | none => none
  | none => none

/-- Final group of pattern 5: (2-4 digits) then optional whitespace to the
end. -/
def pat5num (cs : List Char) : Option Nat :=
  let (y, r) := spanDigits cs
  if (2 ≤ y.length ∧ y.length ≤ 4) ∧ r.dropWhile isPySpace = [] then
    some (natOfDigits y)
  else none

/-- Optional Spanish connective before the year in pattern 5: the group
(?:de backslash-s-plus)? is greedy, so the literal letters d e followed by
whitespace are consumed if the rest of the pattern then matches, and
otherwise the group matches empty. -/
def pat5y (cs : List Char) : Option Nat :=
  match cs with
  | 'd' :: 'e' :: rest =>
    (match dropSpaces1 rest with
     | some r2 =>
       (match pat5num r2 with
        | some y => some y
        | none => pat5num cs)
     | none => pat5num cs)
  | _ => pat5num cs

/-- Month word, whitespace and year tail of pattern 5. -/
def pat5word (cs : List Char) : Option (List Char × Nat) :=
  let (w, r1) := spanWord cs
  if w.length = 0 then none else
  match dropSpaces1 r1 with
  | some r2 => (pat5y r2).map (fun y => (w, y))
  | none => none

/-- Optional Spanish connective before the month word in pattern 5, with
the same greedy-then-empty order as pat5y. -/
def pat5de (cs : List Char) : Option (List Char × Nat) :=
  match cs with
  | 'd' :: 'e' :: rest =>
    (match dropSpaces1 rest with
     | some r2 =>
       (match pat5word r2 with
        | some wy => some wy
        | none => pat5word cs)
     | none => pat5word cs)
  | _ => pat5word cs

/-- Regex-match part of pattern 5 (the Spanish long form): (1-2 digits)
whitespace [de whitespace] (month word) whitespace [de whitespace]
(2-4 digits). -/
def pat5re (cs0 : List Char) : Option (Nat × List Char × Nat) :=
  let cs := cs0.dropWhile isPySpace
  let (d, r1) := spanDigits cs
  if 1 ≤ d.length ∧ d.length ≤ 2 then
    match dropSpaces1 r1 with
    | some r2 => (pat5de r2).map (fun wy => (natOfDigits d, wy.1, wy.2))
    | none => none
  else none

/-- Pattern 5 of parse_date_any, with the MONTHS lookup after the regex. -/
def pat5 (cs : List Char) : Option (Nat × Nat × Nat) :=
  match pat5re cs with
  | some (d, w, y) =>
    match monthLookup (stripDots w) with
    | some m => some (fixY y, m, d)
    | none => none
  | none => none

/-- Pattern 6 of parse_date_any: the slash-only day/month/year fallback
(subsumed by pattern 2 but present in the source). -/
def pat6 (cs0 : List Char) : Option (Nat × Nat × Nat) :=
  let cs := cs0.dropWhile isPySpace
  let (d, r1) := spanDigits cs
  match r1 with
  | c1 :: r2 =>
    if (1 ≤ d.length ∧ d.length ≤ 2) ∧ c1 = '/' then
      let (mo, r3) := spanDigits r2
      match r3 with
      | c2 :: r4 =>
        if (1 ≤ mo.length ∧ mo.length ≤ 2) ∧ c2 = '/' then
          let (y, r5) := spanDigits r4
          if (2 ≤ y.length ∧ y.length ≤ 4) ∧ r5.dropWhile isPySpace = [] then
            some (fixY (natOfDigits y), natOfDigits mo, natOfDigits d)
          else none
        else none
      | [] => none
    else none
  | [] => none

/-- The six patterns of parse_date_any tried in source order, on the
normalized character list. -/
def parseNorm (cs : List Char) : Option (Nat × Nat × Nat) :=
  match pat1 cs with
  | some r => some r
  | none =>
  match pat2 cs with
  | some r => some r
  | none =>
  match pat3 cs with
  | some r => some r
  | none =>
  match pat4 cs with
  | some r => some r
  | none =>
  match pat5 cs with
  | some r => some r
  | none => pat6 cs

/-- parse_date_any of factuser-v2.py.  Total by construction: it models the
Python contract of never raising and returning None on failure.  The
normalization steps are: reject the empty string, strip, reject if blank,
collapse comma/tab runs to single spaces and strip again, lower-case, strip
accents; then the six anchored patterns are tried in order. -/
def parse_date_any (s : String) : Option (Nat × Nat × Nat) :=
  if s.data = [] then none
  else
    let s0 := pyStrip s.data
    if s0 = [] then none
    else parseNorm ((pyStrip (collapseCT false s0)).map (fun c => stripAccentChar (pyLower c)))

/-! ## Control markers and the suggestion-dropdown builders
(factuser-v2.py, lines 53-54, 545-573 and 931-959) -/

/-- The LEAVE_UNCHANGED sentinel string. -/
def LEAVE_UNCHANGED : String := "— leave unchanged —"

/-- The CLEAR_FIELD sentinel string. -/
def CLEAR_FIELD : String := "— clear field —"

/-- The local helper add of populate_ai_from_sources: strip the value, skip
it if blank or already present, otherwise append it.  The seen set of the
source is exactly the set of elements of the accumulated list, so list
membership models it. -/
def suggAdd (acc : List String) (val : String) : List String :=
  let v := pyStripStr val
  if v = "" ∨ v ∈ acc then acc else acc ++ [v]

/-- Candidate section built by populate_ai_from_sources for one field:
CSV per-file top values, then AI candidate values, then the current field
value if non-empty, all through suggAdd. -/
def suggCandidates (csvTop aiVals : List String) (cur : String) : List String :=
  let l1 := csvTop.foldl suggAdd []
  let l2 := aiVals.foldl suggAdd l1
  if cur ≠ "" then suggAdd l2 cur else l2

/-- Item list built per field by populate_ai_from_sources of factuser-v2.py
(lines 545-573): the deduplicated candidate section followed by the two
control markers added unconditionally. -/
def populate_ai_from_sources (csvTop aiVals : List String) (cur : String) : List String :=
  suggCandidates csvTop aiVals cur ++ [LEAVE_UNCHANGED, CLEAR_FIELD]

/-- First index of a string in a list, modelling QComboBox.findText with the
default exact-match flags (the combo boxes in scope always contain the
searched marker, so the not-found value is never observed). -/
def findTextIdx (s : String) : List String → Nat
  | [] => 0
  | h :: t => if h = s then 0 else findTextIdx s t + 1

/-- Default selection index set by populate_ai_from_sources: index 0 when
the combo is non-empty and its first item is not a control marker, and the
findText index of LEAVE_UNCHANGED otherwise. -/
def defaultIdxSources (l : List String) : Nat :=
  if l ≠ [] ∧ l.head? ≠ some LEAVE_UNCHANGED ∧ l.head? ≠ some CLEAR_FIELD then 0
  else findTextIdx LEAVE_UNCHANGED l

/-- Item list built per field by populate_ai_from_cache (factuser-v2.py,
lines 931-959, the v1 builder whose callers shadow the newer ones): AI
candidates verbatim (no CSV history, no strip, no deduplication), then the
current value if non-empty, then the two control markers. -/
def populate_ai_from_cache (aiVals : List String) (cur : String) : List String :=
  aiVals ++ (if cur ≠ "" then [cur] else []) ++ [LEAVE_UNCHANGED, CLEAR_FIELD]

/-- Default selection index set by populate_ai_from_cache: always 0 when the
combo is non-empty, which it always is after the two markers are added. -/
def defaultIdxCache (l : List String) : Nat :=
  if l.length > 0 then 0 else 0

/-! ## Provider normalization and the CSV record index
(factuser-v2.py, lines 69-75 and 470-497) -/

/-- Alphanumeric characters of the normalized provider alphabet
(the string has been lower-cased and accent-stripped first, so the regex
class [^a-z0-9] is the complement of this predicate). -/
def isLowerAlnum (c : Char) : Bool :=
  (97 ≤ c.toNat && c.toNat ≤ 122) || (48 ≤ c.toNat && c.toNat ≤ 57)

/-- The legal-suffix stop list of normalize_provider. -/
def providerStopWords : List String :=
  ["gmbh", "ug", "ag", "kg", "mbh", "co", "inc", "llc", "ltd", "the",
   "sll", "sl", "srl", "sa", "sas", "spa"]

/-- Maximal alphanumeric words of a character list, in order (the words the
regex word-boundary anchors delimit once every non-alphanumeric run has been
collapsed). -/
def alnumWords : List Char → List (List Char)
  | [] => []
  | c :: rest =>
    if isLowerAlnum c then
      match alnumWords rest with
      | [] => [[c]]
      | w :: ws =>
        match rest with
        | [] => [[c]]
        | d :: _ => if isLowerAlnum d then (c :: w) :: ws else [c] :: (w :: ws)
    else alnumWords rest

/-- normalize_provider of factuser-v2.py (lines 69-75).  The source applies
three regex substitutions after lower-casing, stripping and accent removal:
non-alphanumeric runs become single spaces, whole words from the stop list
become spaces (the word-boundary anchors make partial-word matches
impossible on the alphanumeric-and-space alphabet), and whitespace runs are
collapsed with a final strip.  The composite effect is: split into maximal
alphanumeric words, drop stop words, join with single spaces. -/
def normalize_provider (p : String) : String :=
  if p = "" then ""
  else
    let s := (pyStrip (pyLowerStr p).data).map stripAccentChar
    String.intercalate " "
      ((alnumWords s).map String.mk |>.filter (fun w => ¬ w ∈ providerStopWords))

/-- One CSV history record, with the columns of the persisted table. -/
structure CsvRow where
  filename : String
  year : String
  month : String
  day : String
  provider : String
  invoice : String
  total : String
  card : String
  taxid : String
  iban : String
deriving DecidableEq, Repr

/-- Duplicate-detection grouping key of _index_csv_row: normalized provider,
stripped invoice, stripped total, and the dash-joined raw date fields. -/
def groupKey (row : CsvRow) : String × String × String × String :=
  (normalize_provider (pyStripStr row.provider),
   pyStripStr row.invoice,
   pyStripStr row.total,
   row.year ++ "-" ++ row.month ++ "-" ++ row.day)

/-- The derived index state of PdfSorter: the raw row list, the per-filename
row lists, the three global frequency counters, and the duplicate-detection
group map.  Python dicts and Counters are modelled as total functions with
pointwise update (a Counter returns 0 for absent keys, a defaultdict(list)
returns the empty list). -/
structure RecordIndex where
  csv_rows : List CsvRow
  seen_by_filename : String → List CsvRow
  freq_provider : String → Nat
  freq_taxid : String → Nat
  freq_iban : String → Nat
  group_index : String × String × String × String → List CsvRow

/-- The cleared index state (what _load_csv_suggestions_and_indices resets
to before replaying the stored rows). -/
def emptyRecordIndex : RecordIndex where
  csv_rows := []
  seen_by_filename := fun _ => []
  freq_provider := fun _ => 0
  freq_taxid := fun _ => 0
  freq_iban := fun _ => 0
  group_index := fun _ => []

/-- Conditional counter bump: increment the count of v only when v is
non-blank, as _index_csv_row does for provider, taxid and iban. -/
def bumpIf (v : String) (f : String → Nat) : String → Nat :=
  if v = "" then f else fun s => if s = v then f s + 1 else f s

/-- The single-record ingest _index_csv_row of factuser-v2.py (lines
470-482): append the row to csv_rows and to its filename bucket, bump the
three frequency counters for non-blank stripped values, and append the row
to its duplicate-detection group. -/
def index_csv_row (st : RecordIndex) (row : CsvRow) : RecordIndex where
  csv_rows := st.csv_rows ++ [row]
  seen_by_filename := fun fn =>
    if fn = row.filename then st.seen_by_filename fn ++ [row] else st.seen_by_filename fn
  freq_provider := bumpIf (pyStripStr row.provider) st.freq_provider
  freq_taxid := bumpIf (pyStripStr row.taxid) st.freq_taxid
  freq_iban := bumpIf (pyStripStr row.iban) st.freq_iban
  group_index := fun k =>
    if k = groupKey row then st.group_index k ++ [row] else st.group_index k

/-- The full rebuild _load_csv_suggestions_and_indices of factuser-v2.py
(lines 484-497), with the file read abstracted to the ordered row sequence
it yields: clear every derived table, then ingest each stored row in
order. -/
def rebuild_csv_indices (rows : List CsvRow) : RecordIndex :=
  rows.foldl index_csv_row emptyRecordIndex

/-! ## Helper lemmas -/

/-- The candidate section of populate_ai_from_sources sits in front of the
two markers, so LEAVE_UNCHANGED is always a member of the built list. -/
theorem leave_mem_populate_sources (csvTop aiVals : List String) (cur : String) :
    LEAVE_UNCHANGED ∈ populate_ai_from_sources csvTop aiVals cur := by
  unfold populate_ai_from_sources
  simp

/-- Indexing a list at the findTextIdx position of a member returns that
member. -/
theorem getElem_findTextIdx (s : String) (l : List String) (h : s ∈ l) :
    l[findTextIdx s l]? = some s := by
  induction l with
  | nil => cases h
  | cons a t ih =>
    by_cases ha : a = s
    · simp [findTextIdx, ha]
    · rw [List.mem_cons] at h
      have h2 : s ∈ t := by
        rcases h with rfl | h
        · exact absurd rfl ha
        · exact h
      simp [findTextIdx, ha, ih h2]

/-- Folding one extra element on the left is the same as ingesting it into
the folded state (specialization of List.foldl_append used for the
incremental-update equivalence). -/
theorem foldl_concat_index (rows : List CsvRow) (row : CsvRow) :
    List.foldl index_csv_row emptyRecordIndex (rows ++ [row])
      = index_csv_row (List.foldl index_csv_row emptyRecordIndex rows) row := by
  rw [List.foldl_append]
  rfl

/-! ## Claim theorems: record index and suggestion lists -/

/-- C2: rebuilding the record index over a row sequence is exactly the fold
of the single-row ingest over that sequence starting from the cleared
state, and ingesting one further row into a rebuilt index gives the same
state — componentwise: row list, per-filename lists, the three frequency
counters, and the duplicate-detection groups — as a full rebuild over the
extended sequence. -/
theorem rebuild_eq_fold_ingest (rows : List CsvRow) (row : CsvRow) :
    rebuild_csv_indices rows = List.foldl index_csv_row emptyRecordIndex rows
    ∧ (rebuild_csv_indices (rows ++ [row])).csv_rows
        = (index_csv_row (rebuild_csv_indices rows) row).csv_rows
    ∧ (rebuild_csv_indices (rows ++ [row])).seen_by_filename
        = (index_csv_row (rebuild_csv_indices rows) row).seen_by_filename
    ∧ (rebuild_csv_indices (rows ++ [row])).freq_provider
        = (index_csv_row (rebuild_csv_indices rows) row).freq_provider
    ∧ (rebuild_csv_indices (rows ++ [row])).freq_taxid
        = (index_csv_row (rebuild_csv_indices rows) row).freq_taxid
    ∧ (rebuild_csv_indices (rows ++ [row])).freq_iban
        = (index_csv_row (rebuild_csv_indices rows) row).freq_iban
    ∧ (rebuild_csv_indices (rows ++ [row])).group_index
        = (index_csv_row (rebuild_csv_indices rows) row).group_index
    ∧ rebuild_csv_indices (rows ++ [row]) = index_csv_row (rebuild_csv_indices rows) row := by
  have h : rebuild_csv_indices (rows ++ [row]) = index_csv_row (rebuild_csv_indices rows) row := by
    unfold rebuild_csv_indices
    exact foldl_concat_index rows row
  exact ⟨rfl, by rw [h], by rw [h], by rw [h], by rw [h], by rw [h], by rw [h], h⟩

/-- C8: with all three sources empty, populate_ai_from_sources builds
exactly the two control markers with the default index pointing at
LEAVE_UNCHANGED; and in general the default index is 0 whenever the first
item is not a control marker, and otherwise it is the findText index of
LEAVE_UNCHANGED, a position that holds LEAVE_UNCHANGED. -/
theorem populate_sources_default_index (csvTop aiVals : List String) (cur : String) :
    (populate_ai_from_sources [] [] "" = [LEAVE_UNCHANGED, CLEAR_FIELD]
      ∧ defaultIdxSources (populate_ai_from_sources [] [] "") = 0
      ∧ (populate_ai_from_sources [] [] "")[defaultIdxSources (populate_ai_from_sources [] [] "")]?
          = some LEAVE_UNCHANGED)
    ∧ ((populate_ai_from_sources csvTop aiVals cur).head? ≠ some LEAVE_UNCHANGED
        → (populate_ai_from_sources csvTop aiVals cur).head? ≠ some CLEAR_FIELD
        → defaultIdxSources (populate_ai_from_sources csvTop aiVals cur) = 0)
    ∧ (((populate_ai_from_sources csvTop aiVals cur).head? = some LEAVE_UNCHANGED
          ∨ (populate_ai_from_sources csvTop aiVals cur).head? = some CLEAR_FIELD)
        → defaultIdxSources (populate_ai_from_sources csvTop aiVals cur)
            = findTextIdx LEAVE_UNCHANGED (populate_ai_from_sources csvTop aiVals cur)
          ∧ (populate_ai_from_sources csvTop aiVals cur)[defaultIdxSources
              (populate_ai_from_sources csvTop aiVals cur)]? = some LEAVE_UNCHANGED) := by
  refine ⟨⟨by decide, by decide, by decide⟩, ?_, ?_⟩
  · intro h1 h2
    unfold defaultIdxSources
    rw [if_pos]
    refine ⟨?_, h1, h2⟩
    unfold populate_ai_from_sources
    simp
  · intro h
    have hidx : defaultIdxSources (populate_ai_from_sources csvTop aiVals cur)
        = findTextIdx LEAVE_UNCHANGED (populate_ai_from_sources csvTop aiVals cur) := by
      unfold defaultIdxSources
      rw [if_neg]
      rcases h with h | h <;> simp [h]
    refine ⟨hidx, ?_⟩
    rw [hidx]
    exact getElem_findTextIdx _ _ (leave_mem_populate_sources csvTop aiVals cur)

/-- Witness for C8 at concrete inputs: a non-marker first entry gives
default index 0 (via the general theorem, discharging both hypotheses). -/
theorem populate_sources_default_index_witness :
    defaultIdxSources (populate_ai_from_sources ["v"] [] "") = 0 :=
  (populate_sources_default_index ["v"] [] "").2.1 (by decide) (by decide)

/-- C9: parse_date_any is a total function into an optional triple (so it
models a parser that never raises), and it yields no result on the
unparseable inputs of the claim. -/
theorem parse_date_any_failure :
    parse_date_any ("not a date") = none ∧ parse_date_any ("") = none :=
  ⟨by decide, by decide⟩

/-- C5: the five supported textual forms of 23 February 2023 all normalize
to the triple (2023, 2, 23). -/
theorem parse_date_any_formats :
    parse_date_any ("2023-02-23") = some (2023, 2, 23)
    ∧ parse_date_any ("23/02/2023") = some (2023, 2, 23)
    ∧ parse_date_any ("23 Feb 2023") = some (2023, 2, 23)
    ∧ parse_date_any ("Feb 23, 2023") = some (2023, 2, 23)
    ∧ parse_date_any ("23 de febrero de 2023") = some (2023, 2, 23) :=
  ⟨by decide, by decide, by decide, by decide, by decide⟩

/-- C1 (bug evidence): the effective suggestion population after an AI run
goes through populate_ai_from_cache (the later duplicate definitions of
run_ai and batch_ai_cache shadow the ones calling populate_ai_from_sources),
which drops the CSV history tier and keeps duplicate AI candidates, while
the documented builder populate_ai_from_sources on the same inputs produces
the history-first deduplicated list the claim describes. -/
theorem populate_cache_drops_history_and_dedup :
    populate_ai_from_cache ["X", "X"] "" = ["X", "X", LEAVE_UNCHANGED, CLEAR_FIELD]
    ∧ populate_ai_from_sources ["H"] ["X", "X"] ""
        = ["H", "X", LEAVE_UNCHANGED, CLEAR_FIELD] :=
  ⟨by decide, by decide⟩

/-- C7 (bug evidence): a list built by populate_ai_from_cache can repeat a
candidate, so its candidate section is not duplicate-free. -/
theorem populate_cache_duplicate_candidates :
    (populate_ai_from_cache ["X", "X"] "").take 2 = ["X", "X"]
    ∧ ¬ ((populate_ai_from_cache ["X", "X"] "").take 2).Nodup :=
  ⟨by decide, by decide⟩

/-! ## Word tokens and geometric selection
(factuser-v2.py, lines 675-787 and 1057-1092) -/

/-- One word token of a page, as produced by the PyMuPDF words query:
bounding box in document units, text, and the block and line identifiers.
The trailing word number of the source tuple is unused by the handlers. -/
structure Word where
  x0 : ℚ
  y0 : ℚ
  x1 : ℚ
  y1 : ℚ
  text : String
  block : Int
  line : Int
deriving DecidableEq, Repr

/-- Reading-order key comparison used by on_pdf_box: the lexicographic
order on (block, line, x0), as Python compares the key tuples. -/
def readingLe (a b : Word) : Prop :=
  a.block < b.block
  ∨ (a.block = b.block ∧ (a.line < b.line ∨ (a.line = b.line ∧ a.x0 ≤ b.x0)))

instance : DecidableRel readingLe := fun a b => by
  unfold readingLe
  infer_instance

instance : IsTotal Word readingLe := by
  constructor
  intro a b
  unfold readingLe
  rcases lt_trichotomy a.block b.block with h | h | h
  · exact Or.inl (Or.inl h)
  · rcases lt_trichotomy a.line b.line with h2 | h2 | h2
    · exact Or.inl (Or.inr ⟨h, Or.inl h2⟩)
    · rcases le_total a.x0 b.x0 with h3 | h3
      · exact Or.inl (Or.inr ⟨h, Or.inr ⟨h2, h3⟩⟩)
      · exact Or.inr (Or.inr ⟨h.symm, Or.inr ⟨h2.symm, h3⟩⟩)
    · exact Or.inr (Or.inr ⟨h.symm, Or.inl h2⟩)
  · exact Or.inr (Or.inl h)

instance : IsTrans Word readingLe := by
  constructor
  intro a b c hab hbc
  unfold readingLe at *
  rcases hab with h1 | ⟨hb1, h1⟩
  · rcases hbc with h2 | ⟨hb2, h2⟩
    · exact Or.inl (h1.trans h2)
    · exact Or.inl (hb2 ▸ h1)
  · rcases hbc with h2 | ⟨hb2, h2⟩
    · exact Or.inl (hb1 ▸ h2)
    · refine Or.inr ⟨hb1.trans hb2, ?_⟩
      rcases h1 with h1 | ⟨hl1, h1⟩
      · rcases h2 with h2 | ⟨hl2, h2⟩
        · exact Or.inl (h1.trans h2)
        · exact Or.inl (hl2 ▸ h1)
      · rcases h2 with h2 | ⟨hl2, h2⟩
        · exact Or.inl (hl1 ▸ h2)
        · exact Or.inr ⟨hl1.trans hl2, h1.trans h2⟩

/-- Sorting by x0 only, as the chosen line is sorted in on_pdf_click. -/
def x0Le (a b : Word) : Prop := a.x0 ≤ b.x0

instance : DecidableRel x0Le := fun a b => by
  unfold x0Le
  infer_instance

/-- PyMuPDF Rect.intersects for two boxes given by their corner
coordinates: both rectangles must be non-empty (positive width and height)
and their overlap must be non-empty.  List.sort in Python is stable, and so
is List.insertionSort, so the sorted orders agree on duplicates. -/
def rectIntersects (ax0 ay0 ax1 ay1 bx0 by0 bx1 by1 : ℚ) : Prop :=
  ax0 < ax1 ∧ ay0 < ay1 ∧ bx0 < bx1 ∧ by0 < by1
  ∧ max ax0 bx0 < min ax1 bx1 ∧ max ay0 by0 < min ay1 by1

instance (ax0 ay0 ax1 ay1 bx0 by0 bx1 by1 : ℚ) :
    Decidable (rectIntersects ax0 ay0 ax1 ay1 bx0 by0 bx1 by1) := by
  unfold rectIntersects
  infer_instance

/-- The token filter of on_pdf_box: a word is picked when its bounding box
intersects the selection rectangle converted to document units. -/
def wordInBox (l t r b zoom : ℚ) (w : Word) : Bool :=
  decide (rectIntersects w.x0 w.y0 w.x1 w.y1 (l / zoom) (t / zoom) (r / zoom) (b / zoom))

/-- The picked-and-sorted token list of on_pdf_box: every intersecting word
in input order, then a stable sort by the reading-order key. -/
def boxPicked (toks : List Word) (l t r b zoom : ℚ) : List Word :=
  List.insertionSort readingLe (toks.filter (wordInBox l t r b zoom))

/-- on_pdf_box of factuser-v2.py (lines 761-787), with the page query
abstracted to the token list and the rectangle given by the four values the
handler reads from it: convert the corners by the zoom division, collect the
intersecting words, sort them in reading order, join their texts with single
spaces and strip; an empty result string yields no popup (none). -/
def on_pdf_box (toks : List Word) (l t r b zoom : ℚ) : Option String :=
  if toks = [] then none
  else
    let text := pyStripStr (String.intercalate " " ((boxPicked toks l t r b zoom).map Word.text))
    if text = "" then none else some text

/-! ### The effective click handler (second definition, lines 1057-1092) -/

/-- Nearest-token scan of the effective on_pdf_click: fold over all words
keeping the first word whose squared center distance to the converted click
point is strictly smaller than the best so far, starting from the float
literal 1e18. -/
def bestByCenter (px py : ℚ) (ws : List Word) : Option Word :=
  (ws.foldl
    (fun best w =>
      let cx := (w.x0 + w.x1) / 2
      let cy := (w.y0 + w.y1) / 2
      let d2 := (cx - px) * (cx - px) + (cy - py) * (cy - py)
      if d2 < best.2 then (some w, d2) else best)
    (none, (10 : ℚ) ^ 18)).1

/-- The effective on_pdf_click of factuser-v2.py (second definition, lines
1057-1092, which shadows the snap-and-glue definition at lines 675-753):
convert the click to document units, take the word with the nearest center
over the whole page, and offer its stripped text; none when there are no
words or the text strips to blank. -/
def on_pdf_click_eff (ws : List Word) (x y zoom : ℚ) : Option String :=
  if ws = [] then none
  else
    match bestByCenter (x / zoom) (y / zoom) ws with
    | none => none
    | some w =>
      let text := pyStripStr w.text
      if text = "" then none else some text

/-! ### The shadowed click handler (first definition, lines 675-753) -/

/-- Token text at an index, as the local helper at of glue_amount_or_name:
the empty string out of bounds (the source guards every gap computation by
a bounds test placed before it in a short-circuit conjunction). -/
def wTextAt (ws : List Word) (i : Nat) : String :=
  match ws[i]? with
  | some w => w.text
  | none => ""

/-- Horizontal gap between token i and token j, the local helper gap:
x0 of the right token minus x1 of the left one (0 out of bounds; every
call site is bounds-guarded as in the source). -/
def wGap (ws : List Word) (i j : Nat) : ℚ :=
  (match ws[j]? with | some w => w.x0 | none => 0)
    - (match ws[i]? with | some w => w.x1 | none => 0)

/-- The currency marker set of glue_amount_or_name. -/
def currencySet : List String := ["€", "eur", "euro", "euros"]

/-- The is_numlike predicate: the regex alternation of an optional single
euro sign (so the empty string and the euro sign match) or a non-empty
string of digits, dots and commas. -/
def is_numlike (t : String) : Bool :=
  t = "" || t = "€"
  || (t.data ≠ [] && t.data.all (fun c => isDig c || c = '.' || c = ','))

/-- The is_namepiece predicate: a non-empty string of ASCII letters,
Latin-1-supplement characters (codepoints 192-255 as matched by the regex
range), ampersand, apostrophe, dot and hyphen. -/
def is_namepiece (t : String) : Bool :=
  t.data ≠ [] && t.data.all (fun c =>
    (65 ≤ c.toNat && c.toNat ≤ 90) || (97 ≤ c.toNat && c.toNat ≤ 122)
    || (192 ≤ c.toNat && c.toNat ≤ 255)
    || c = '&' || c = '\'' || c = '.' || c = '-')

/-- Leftward expansion loop of glue_amount_or_name for a predicate p and a
gap threshold: the argument jSucc is the successor of the running Python
index j, so jSucc = 0 encodes j = -1 and the loop is structural. -/
def expandLeft (p : String → Bool) (thr : ℚ) (ws : List Word) : Nat → String → String
  | 0, token => token
  | j + 1, token =>
    if p (wTextAt ws j) ∧ wGap ws j (j + 1) < thr then
      expandLeft p thr ws j (wTextAt ws j ++ " " ++ token)
    else token

/-- Rightward expansion loop of glue_amount_or_name, with explicit fuel: the
loop increments j until the bounds test j < length fails, so any fuel of at
least length - j steps computes the exact fixpoint; callers pass the list
length, which always suffices since j starts beyond idx which is at least
0. -/
def expandRight (p : String → Bool) (thr : ℚ) (ws : List Word) : Nat → Nat → String → String
  | 0, _, token => token
  | fuel + 1, j, token =>
    if j < ws.length ∧ p (wTextAt ws j) ∧ wGap ws (j - 1) j < thr then
      expandRight p thr ws fuel (j + 1) (token ++ " " ++ wTextAt ws j)
    else token

/-- glue_amount_or_name of factuser-v2.py (lines 711-751): starting from
the picked index, optionally prepend a currency marker on the immediate
left (shifting the running left index i), optionally append one on the
immediate right of the original index, then expand left from i-1 and right
from idx+1 over numeric-like tokens with threshold 25, then again left from
i-1 and right from idx+1 over name pieces with threshold 25, and strip the
result. -/
def glue_amount_or_name (ws : List Word) (idx : Nat) : String :=
  let startTok := wTextAt ws idx
  let leftCur : Bool := decide (1 ≤ idx)
      && decide (pyLowerStr (wTextAt ws (idx - 1)) ∈ currencySet)
      && decide (wGap ws (idx - 1) idx < 20)
  let tok1 := if leftCur then wTextAt ws (idx - 1) ++ " " ++ startTok else startTok
  let i := if leftCur then idx - 1 else idx
  let tok2 :=
    if idx + 1 < ws.length
        ∧ pyLowerStr (wTextAt ws (idx + 1)) ∈ currencySet
        ∧ wGap ws idx (idx + 1) < 20 then
      tok1 ++ " " ++ wTextAt ws (idx + 1)
    else tok1
  let tok3 := expandLeft is_numlike 25 ws i tok2
  let tok4 := expandRight is_numlike 25 ws ws.length (idx + 1) tok3
  let tok5 := expandLeft is_namepiece 25 ws i tok4
  let tok6 := expandRight is_namepiece 25 ws ws.length (idx + 1) tok5
  pyStripStr tok6

/-- First-occurrence list of (block, line) keys, in input order: the
iteration order of the by_line dict of the shadowed on_pdf_click. -/
def lineKeys (ws : List Word) : List (Int × Int) :=
  ws.foldl (fun acc w => if (w.block, w.line) ∈ acc then acc else acc ++ [(w.block, w.line)]) []

/-- The token group of one (block, line) key, in input order (the append
order of the by_line defaultdict). -/
def lineGroup (ws : List Word) (k : Int × Int) : List Word :=
  ws.filter (fun w => (w.block, w.line) = k)

/-- Python min over a non-empty list (the head default is never observed at
the call sites, which pass groups of existing keys). -/
def minList : List ℚ → ℚ
  | [] => 0
  | h :: t => t.foldl min h

/-- Python max over a non-empty list. -/
def maxList : List ℚ → ℚ
  | [] => 0
  | h :: t => t.foldl max h

/-- Vertical midpoint of a line group: the midpoint of the span from the
least y0 to the greatest y1 over the group. -/
def lineMid (g : List Word) : ℚ :=
  (minList (g.map Word.y0) + maxList (g.map Word.y1)) / 2

/-- Nearest-line scan of the shadowed on_pdf_click: fold over the keys in
dict order keeping the first key whose midpoint distance to the converted
click y is strictly smaller than the best so far (ties keep the earlier
key). -/
def bestLineKey (ws : List Word) (py : ℚ) : Option (Int × Int) :=
  ((lineKeys ws).foldl
    (fun best k =>
      let d := |lineMid (lineGroup ws k) - py|
      if d < best.2 then (some k, d) else best)
    (none, (10 : ℚ) ^ 18)).1

/-- First index of the sorted line whose token starts at or right of the
click, modelling the snap-right loop; the index-of call on the picked token
resolves to this position, and to the first minimizer of the center
distance in the fallback branch. -/
def pickedIdx (lw : List Word) (px : ℚ) : Nat :=
  match lw.findIdx? (fun w => decide (px ≤ w.x0)) with
  | some i => i
  | none =>
    (lw.foldl
      (fun (st : Nat × Nat × ℚ) w =>
        let d := |(w.x0 + w.x1) / 2 - px|
        if d < st.2.2 then (st.1 + 1, st.1, d) else (st.1 + 1, st.2.1, st.2.2))
      (0, 0, (10 : ℚ) ^ 18)).2.1

/-- The shadowed on_pdf_click of factuser-v2.py (first definition, lines
675-753): group the words by (block, line); choose the group whose vertical
midpoint is nearest to the converted click y (first group wins ties); sort
that line by x0; pick the first token starting at or right of the converted
x, falling back to the token with the nearest horizontal center; and return
the glued composite string. -/
def on_pdf_click_snap (ws : List Word) (x y zoom : ℚ) : Option String :=
  if ws = [] then none
  else
    let px := x / zoom
    let py := y / zoom
    match bestLineKey ws py with
    | none => none
    | some k =>
      let lw := List.insertionSort x0Le (lineGroup ws k)
      some (glue_amount_or_name lw (pickedIdx lw px))

/-! ## Claim theorems: geometric selection -/

/-- C6: on_pdf_box picks exactly the intersecting tokens (the picked list is
a permutation of the input filter), sorts them by (block, line, x0), returns
none when nothing intersects, equals the join-and-strip of the picked list,
and on a concrete two-line selection returns the tokens in reading order
rather than pixel-proximity order. -/
theorem on_pdf_box_reading_order (toks : List Word) (l t r b zoom : ℚ) :
    (boxPicked toks l t r b zoom).Perm (toks.filter (wordInBox l t r b zoom))
    ∧ List.Sorted readingLe (boxPicked toks l t r b zoom)
    ∧ ((∀ w ∈ toks, wordInBox l t r b zoom w = false) → on_pdf_box toks l t r b zoom = none)
    ∧ on_pdf_box toks l t r b zoom
        = (if toks = [] then none
           else
             if pyStripStr (String.intercalate " " ((boxPicked toks l t r b zoom).map Word.text))
                 = "" then none
             else some (pyStripStr (String.intercalate " "
                 ((boxPicked toks l t r b zoom).map Word.text))))
    ∧ on_pdf_box
        [⟨0, 20, 10, 30, "Acme", 0, 1⟩, ⟨20, 0, 30, 10, "42", 0, 0⟩,
         ⟨0, 0, 10, 10, "Total", 0, 0⟩] 0 0 45 45 (3 / 2)
        = some ("Total 42 Acme") := by
  refine ⟨List.perm_insertionSort readingLe _, List.sorted_insertionSort readingLe _, ?_, rfl, ?_⟩
  · intro h
    have hf : toks.filter (wordInBox l t r b zoom) = [] := by
      rw [List.filter_eq_nil_iff]
      intro a ha
      simp [h a ha]
    by_cases he : toks = []
    · simp [on_pdf_box, he]
    · simp only [on_pdf_box, boxPicked, hf, he, if_false]
      decide
  · norm_num [on_pdf_box, boxPicked, wordInBox, rectIntersects, List.insertionSort,
      List.orderedInsert, readingLe]
    decide

/-- Witness for C6: the general theorem applied at a concrete empty token
list, discharging the no-intersection hypothesis of its third conjunct. -/
theorem on_pdf_box_reading_order_witness :
    on_pdf_box [] 0 0 45 45 (3 / 2) = none :=
  (on_pdf_box_reading_order [] 0 0 45 45 (3 / 2)).2.2.1 (by intro w hw; cases hw)

/-- C3 (bug evidence): the effective on_pdf_click (second definition)
returns the globally center-nearest token, here the word at the line start,
whereas the shadowed first definition and the claim snap to the first token
starting right of the click on the nearest line. -/
theorem on_pdf_click_divergence :
    on_pdf_click_eff
        [⟨0, 0, 10, 10, "A", 0, 0⟩, ⟨100, 0, 110, 10, "B", 0, 0⟩] 75 9 (3 / 2)
      = some ("A")
    ∧ on_pdf_click_snap
        [⟨0, 0, 10, 10, "A", 0, 0⟩, ⟨100, 0, 110, 10, "B", 0, 0⟩] 75 9 (3 / 2)
      = some ("B") := by
  constructor
  · norm_num [on_pdf_click_eff, bestByCenter, pyStripStr, pyStrip, isPySpace]
    decide
  · norm_num [on_pdf_click_snap, bestLineKey, lineKeys, lineGroup, lineMid, minList, maxList,
      List.insertionSort, List.orderedInsert, x0Le, pickedIdx, List.findIdx?,
      glue_amount_or_name, expandLeft, expandRight, wTextAt, wGap, is_numlike, is_namepiece,
      currencySet, pyLowerStr, pyLower, pyStripStr, pyStrip, isPySpace]
    decide

/-- C4 (bug evidence): on a line of a euro sign and an amount 2 document
units apart, the shadowed first on_pdf_click glues the currency marker to
the amount from a click near either token, but the effective second
definition returns only the single nearest word, so the glued composite of
the claim is never produced. -/
theorem currency_glue_divergence :
    on_pdf_click_eff
        [⟨0, 0, 8, 10, "€", 0, 0⟩, ⟨10, 0, 40, 10, "120,50", 0, 0⟩] 30 6 (3 / 2)
      = some ("120,50")
    ∧ on_pdf_click_eff
        [⟨0, 0, 8, 10, "€", 0, 0⟩, ⟨10, 0, 40, 10, "120,50", 0, 0⟩] 0 6 (3 / 2)
      = some ("€")
    ∧ on_pdf_click_snap
        [⟨0, 0, 8, 10, "€", 0, 0⟩, ⟨10, 0, 40, 10, "120,50", 0, 0⟩] 30 6 (3 / 2)
      = some ("€ 120,50")
    ∧ on_pdf_click_snap
        [⟨0, 0, 8, 10, "€", 0, 0⟩, ⟨10, 0, 40, 10, "120,50", 0, 0⟩] 0 6 (3 / 2)
      = some ("€ 120,50") := by
  refine ⟨?_, ?_, ?_, ?_⟩ <;>
    first
      | (norm_num [on_pdf_click_eff, bestByCenter, pyStripStr, pyStrip, isPySpace]
         decide)
      | (norm_num [on_pdf_click_snap, bestLineKey, lineKeys, lineGroup, lineMid, minList,
          maxList, List.insertionSort, List.orderedInsert, x0Le, pickedIdx, List.findIdx?,
          glue_amount_or_name, expandLeft, expandRight, wTextAt, wGap, is_numlike, is_namepiece,
          currencySet, pyLowerStr, pyLower, pyStripStr, pyStrip, isPySpace]
         decide)

/-! ## Helper lemmas for the no-range-validation theorem -/

/-- Dropping while a predicate fails on every element is the identity. -/
theorem dropWhile_all_false (p : Char → Bool) (l : List Char) (h : ∀ c ∈ l, p c = false) :
    l.dropWhile p = l := by
  cases l with
  | nil => rfl
  | cons a t => simp [List.dropWhile_cons, h a (List.mem_cons_self a t)]

/-- A list all of whose elements satisfy the predicate spans whole. -/
theorem span_all (p : Char → Bool) (l : List Char) (h : ∀ c ∈ l, p c = true) :
    l.takeWhile p = l ∧ l.dropWhile p = [] := by
  induction l with
  | nil => exact ⟨rfl, rfl⟩
  | cons a t ih =>
    have ha := h a (List.mem_cons_self a t)
    have iht := ih (fun c hc => h c (List.mem_cons_of_mem a hc))
    simp [List.takeWhile_cons, List.dropWhile_cons, ha, iht.1, iht.2]

/-- The greedy span of a prefix delimited by a failing element is exactly
that prefix. -/
theorem span_boundary (p : Char → Bool) (xs : List Char) (y : Char) (rest : List Char)
    (h1 : ∀ c ∈ xs, p c = true) (h2 : p y = false) :
    (xs ++ y :: rest).takeWhile p = xs ∧ (xs ++ y :: rest).dropWhile p = y :: rest := by
  induction xs with
  | nil => simp [List.takeWhile_cons, List.dropWhile_cons, h2]
  | cons a t ih =>
    have ha := h1 a (List.mem_cons_self a t)
    have iht := ih (fun c hc => h1 c (List.mem_cons_of_mem a hc))
    simp [List.takeWhile_cons, List.dropWhile_cons, ha, iht.1, iht.2]

/-- Stripping a list with no whitespace is the identity. -/
theorem pyStrip_all_nonspace (l : List Char) (h : ∀ c ∈ l, isPySpace c = false) :
    pyStrip l = l := by
  unfold pyStrip
  rw [dropWhile_all_false isPySpace l h,
    dropWhile_all_false isPySpace l.reverse (fun c hc => h c (List.mem_reverse.mp hc)),
    List.reverse_reverse]

/-- Collapsing comma and tab runs in a list that has neither is the
identity. -/
theorem collapseCT_all_other (l : List Char) (h : ∀ c ∈ l, (c = ',' || c = '\t') = false) :
    collapseCT false l = l := by
  induction l with
  | nil => rfl
  | cons a t ih =>
    have ha := h a (List.mem_cons_self a t)
    have iht := ih (fun c hc => h c (List.mem_cons_of_mem a hc))
    simp [collapseCT, ha, iht]

/-- Digit characters have codepoints 48 through 57. -/
theorem isDig_toNat (c : Char) (h : isDig c = true) : 48 ≤ c.toNat ∧ c.toNat ≤ 57 := by
  simpa [isDig, Bool.and_eq_true, decide_eq_true_eq] using h

/-- Characters with codepoints below 65 (digits, separators) are untouched
by the lower-casing and accent-stripping normalization. -/
theorem norm_id_of_lt_65 (c : Char) (h : c.toNat < 65) :
    stripAccentChar (pyLower c) = c := by
  have hlow : pyLower c = c := by
    unfold pyLower
    rw [if_neg (by omega)]
  rw [hlow]
  unfold stripAccentChar
  split <;> first | rfl | omega

/-- Digit characters are not whitespace, not commas or tabs, and are fixed
by the lower-and-accent normalization. -/
theorem digit_char_facts (c : Char) (h : isDig c = true) :
    isPySpace c = false ∧ (c = ',' || c = '\t') = false ∧ stripAccentChar (pyLower c) = c := by
  have hn := isDig_toNat c h
  refine ⟨?_, ?_, norm_id_of_lt_65 c (by omega)⟩
  · cases hb : isPySpace c with
    | false => rfl
    | true =>
      exfalso
      simp only [isPySpace, Bool.or_eq_true, decide_eq_true_eq] at hb
      rcases hb with ((((rfl | rfl) | rfl) | rfl) | rfl) | rfl <;> exact absurd h (by decide)
  · cases hb : (decide (c = ',') || decide (c = '\t')) with
    | false => rfl
    | true =>
      exfalso
      simp only [Bool.or_eq_true, decide_eq_true_eq] at hb
      rcases hb with rfl | rfl <;> exact absurd h (by decide)

/-- The three separator characters are not digits, not whitespace, not
commas or tabs, are fixed by normalization, and satisfy the separator
class. -/
theorem sep_char_facts (s : Char) (hs : s ∈ ['.', '-', '/']) :
    isDig s = false ∧ isPySpace s = false ∧ (s = ',' || s = '\t') = false
    ∧ stripAccentChar (pyLower s) = s ∧ isSepCh s = true := by
  have hs3 : s = '.' ∨ s = '-' ∨ s = '/' := by simpa using hs
  rcases hs3 with rfl | rfl | rfl <;>
    exact ⟨by decide, by decide, by decide, by decide, by decide⟩

/-! ## The no-range-validation theorem (claim C10) -/

/-- C10: parse_date_any performs no calendar-range validation.  For every
input of the shape D sep M sep YYYY — D and M non-empty digit strings of at
most two characters, YYYY a four-digit string whose value is a genuine
four-digit-era year (at least 100, so the two-digit-year fixup is inert),
each sep one of dot, dash, slash — the parser returns the raw numeric
triple (year, month, day), with no bound checks on month or day. -/
theorem parse_date_any_no_range_validation
    (ds ms ys : List Char) (sep1 sep2 : Char)
    (hd : ∀ c ∈ ds, isDig c = true) (hd1 : 1 ≤ ds.length) (hd2 : ds.length ≤ 2)
    (hm : ∀ c ∈ ms, isDig c = true) (hm1 : 1 ≤ ms.length) (hm2 : ms.length ≤ 2)
    (hy : ∀ c ∈ ys, isDig c = true) (hy4 : ys.length = 4)
    (hs1 : sep1 ∈ ['.', '-', '/']) (hs2 : sep2 ∈ ['.', '-', '/'])
    (hyy : 100 ≤ natOfDigits ys) :
    parse_date_any (String.mk (ds ++ sep1 :: (ms ++ sep2 :: ys)))
      = some (natOfDigits ys, natOfDigits ms, natOfDigits ds) := by
  set l : List Char := ds ++ sep1 :: (ms ++ sep2 :: ys) with hl
  obtain ⟨hs1d, hs1sp, hs1ct, hs1n, hs1sep⟩ := sep_char_facts sep1 hs1
  obtain ⟨hs2d, hs2sp, hs2ct, hs2n, hs2sep⟩ := sep_char_facts sep2 hs2
  have hchar : ∀ c ∈ l, isDig c = true ∨ c = sep1 ∨ c = sep2 := by
    intro c hc
    rw [hl] at hc
    simp only [List.mem_append, List.mem_cons] at hc
    rcases hc with hc | rfl | hc | rfl | hc
    · exact Or.inl (hd c hc)
    · exact Or.inr (Or.inl rfl)
    · exact Or.inl (hm c hc)
    · exact Or.inr (Or.inr rfl)
    · exact Or.inl (hy c hc)
  have hnospace : ∀ c ∈ l, isPySpace c = false := by
    intro c hc
    rcases hchar c hc with h | rfl | rfl
    · exact (digit_char_facts c h).1
    · exact hs1sp
    · exact hs2sp
  have hnoct : ∀ c ∈ l, (c = ',' || c = '\t') = false := by
    intro c hc
    rcases hchar c hc with h | rfl | rfl
    · exact (digit_char_facts c h).2.1
    · exact hs1ct
    · exact hs2ct
  have hnormid : ∀ c ∈ l, stripAccentChar (pyLower c) = c := by
    intro c hc
    rcases hchar c hc with h | rfl | rfl
    · exact (digit_char_facts c h).2.2
    · exact hs1n
    · exact hs2n
  have hlne : l ≠ [] := by
    rw [hl]
    cases ds with
    | nil => simp at hd1
    | cons a t => simp
  have hstrip : pyStrip l = l := pyStrip_all_nonspace l hnospace
  have hct : collapseCT false l = l := collapseCT_all_other l hnoct
  have hmap : l.map (fun c => stripAccentChar (pyLower c)) = l := by
    conv_rhs => rw [← List.map_id l]
    exact List.map_congr_left hnormid
  -- the greedy digit spans of the normalized input
  have hspan1 : spanDigits l = (ds, sep1 :: (ms ++ sep2 :: ys)) := by
    unfold spanDigits
    have := span_boundary isDig ds sep1 (ms ++ sep2 :: ys) hd hs1d
    rw [hl, this.1, this.2]
  have hspan2 : spanDigits (ms ++ sep2 :: ys) = (ms, sep2 :: ys) := by
    unfold spanDigits
    have := span_boundary isDig ms sep2 ys hm hs2d
    rw [this.1, this.2]
  have hspan3 : spanDigits ys = (ys, []) := by
    unfold spanDigits
    have := span_all isDig ys hy
    rw [this.1, this.2]
  have hdropl : l.dropWhile isPySpace = l := dropWhile_all_false isPySpace l hnospace
  -- pattern 1 rejects: the leading digit run has at most two characters
  have hpat1 : pat1 l = none := by
    unfold pat1
    simp only [hdropl, hspan1]
    rw [if_neg]
    intro hcon
    omega
  -- pattern 2 accepts with the raw values
  have hpat2 : pat2 l = some (fixY (natOfDigits ys), natOfDigits ms, natOfDigits ds) := by
    unfold pat2
    simp only [hdropl, hspan1, hspan2, hspan3]
    rw [if_pos ⟨⟨hd1, hd2⟩, hs1sep⟩, if_pos ⟨⟨hm1, hm2⟩, hs2sep⟩, if_pos]
    exact ⟨⟨by omega, by omega⟩, rfl⟩
  have hfix : fixY (natOfDigits ys) = natOfDigits ys := by
    unfold fixY
    rw [if_neg]
    omega
  unfold parse_date_any
  rw [if_neg (by simpa using hlne)]
  simp only [hstrip]
  rw [if_neg hlne, hct, hstrip, hmap]
  unfold parseNorm
  rw [hpat1, hpat2, hfix]

/-- Witness for C10: the theorem instantiated at the input 99/99/2099 of
the claim, where both the day 99 and the month 99 are far outside calendar
range. -/
theorem parse_date_any_no_range_validation_witness :
    parse_date_any ("99/99/2099") = some (2099, 99, 99) := by
  have h := parse_date_any_no_range_validation
    ['9', '9'] ['9', '9'] ['2', '0', '9', '9'] '/' '/'
    (by decide) (by decide) (by decide)
    (by decide) (by decide) (by decide)
    (by decide) (by decide)
    (by decide) (by decide)
    (by decide)
  simpa using h
